import Mathlib

/-!
# Verification of the `c_compiler-rs` streaming lexer

Shallow embedding of `src/compiler/src/main.rs`: a line-oriented tokenizer
for a minimal C-like language.  Lines are modelled as lists of characters
(the `lines()` iterator of the stream), `u64` arithmetic is modelled as
`Nat` arithmetic reduced modulo `2^64`, and the fallible tokenizer is
modelled with `Except`.
-/

/-- The token type (`enum Token` in the source). Integer payloads are `u64`
values, modelled as `Nat` (every value the lexer produces is `< 2^64`). -/
inductive Token where
  | OpenBrace
  | CloseBrace
  | OpenParenthesis
  | CloseParenthesis
  | Semicolon
  | IntKeyword
  | ReturnKeyword
  | Identifier (s : String)
  | Integer (n : Nat)
deriving DecidableEq, Repr

/-- The tokenizer state (`enum TokenizerState` in the source):
`ConsumeNextChar` is the idle state, `ReadIdentifier` accumulates an
identifier lexeme, `ReadInteger` accumulates a numeric literal with an
optional radix (`None` right after a leading `0`). -/
inductive TokenizerState where
  | ConsumeNextChar
  | ReadIdentifier (s : String)
  | ReadInteger (number : Nat) (radix : Option Nat)
deriving DecidableEq, Repr

/-- The two lexical error shapes the source constructs (both are
`io::ErrorKind::InvalidData`): `unexpectedChar c` stands for the message
`"Unexpected character: c"`, `unknownChar c` for
`"Encountered unknown character: c"`. -/
inductive LexError where
  | unexpectedChar (c : Char)
  | unknownChar (c : Char)
deriving DecidableEq, Repr

/-- `primitive_to_token` from the source: the five punctuation characters
map to their tokens, anything else is an "Unexpected character" error. -/
def primitive_to_token (c : Char) : Except LexError Token :=
  if c = '{' then .ok .OpenBrace
  else if c = '}' then .ok .CloseBrace
  else if c = '(' then .ok .OpenParenthesis
  else if c = ')' then .ok .CloseParenthesis
  else if c = ';' then .ok .Semicolon
  else .error (.unexpectedChar c)

/-- `string_to_token` from the source: the exact spellings `"Int"` and
`"Return"` are keywords, every other string is an identifier. -/
def string_to_token (s : String) : Token :=
  if s = "Int" then .IntKeyword
  else if s = "Return" then .ReturnKeyword
  else .Identifier s

/-- The five punctuation characters matched by the `'{'|'}'|'('|')'|';'`
arms of the source. -/
def isPrimitiveChar (c : Char) : Bool :=
  c = '{' ∨ c = '}' ∨ c = '(' ∨ c = ')' ∨ c = ';'

/-- The `'0'...'9' | 'a'...'f' | 'o' | 'x'` match arm of the `ReadInteger`
state (inclusive character ranges). -/
def isIntegerChar (c : Char) : Bool :=
  ('0' ≤ c ∧ c ≤ '9') ∨ ('a' ≤ c ∧ c ≤ 'f') ∨ c = 'o' ∨ c = 'x'

/-- ASCII fragment of Rust's `char::is_alphabetic` (Unicode `Alphabetic`).
The development only ever evaluates this predicate at ASCII characters and
at Unicode whitespace characters (which are never alphabetic), where this
fragment agrees with the full Unicode predicate. -/
def isRustAlphabetic (c : Char) : Bool :=
  ('a' ≤ c ∧ c ≤ 'z') ∨ ('A' ≤ c ∧ c ≤ 'Z')

/-- ASCII fragment of Rust's `char::is_alphanumeric` (alphabetic or digit);
same caveat as `isRustAlphabetic`. -/
def isRustAlphanumeric (c : Char) : Bool :=
  isRustAlphabetic c ∨ ('0' ≤ c ∧ c ≤ '9')

/-- Rust's `char::is_whitespace`: the full Unicode `White_Space` list
(exact, all 25 code points). -/
def isRustWhitespace (c : Char) : Bool :=
  c = '\x09' ∨ c = '\x0a' ∨ c = '\x0b' ∨ c = '\x0c' ∨ c = '\x0d' ∨ c = ' ' ∨
  c = '\x85' ∨ c = '\xa0' ∨ c = ' ' ∨
  c = ' ' ∨ c = ' ' ∨ c = ' ' ∨ c = ' ' ∨ c = ' ' ∨
  c = ' ' ∨ c = ' ' ∨ c = ' ' ∨ c = ' ' ∨ c = ' ' ∨
  c = ' ' ∨ c = ' ' ∨ c = ' ' ∨ c = ' ' ∨ c = ' ' ∨
  c = '　'

/-- Rust's `char::to_digit`: digits `0`-`9` and letters (value 10-35),
valid only when the value is below `radix`. -/
def rustToDigit (c : Char) (radix : Nat) : Option Nat :=
  if '0' ≤ c ∧ c ≤ '9' then
    if c.toNat - 48 < radix then some (c.toNat - 48) else none
  else if 'a' ≤ c ∧ c ≤ 'z' then
    if c.toNat - 97 + 10 < radix then some (c.toNat - 97 + 10) else none
  else if 'A' ≤ c ∧ c ≤ 'Z' then
    if c.toNat - 65 + 10 < radix then some (c.toNat - 65 + 10) else none
  else none

/-- One step of the tokenizer state machine: the body of the
`while let Some(ch) = chars.next()` loop of `Tokenizer::tokenize`, for one
character.  Returns the tokens pushed for this character and the state the
machine is left in (`new_state` in the source, or the unchanged state).
`u64` accumulation is `Nat` arithmetic modulo `2^64`. -/
def stepChar (st : TokenizerState) (ch : Char) :
    Except LexError (List Token × TokenizerState) :=
  match st with
  | .ConsumeNextChar =>
    if isPrimitiveChar ch then
      match primitive_to_token ch with
      | .error e => .error e
      | .ok t => .ok ([t], .ConsumeNextChar)
    else if ch = '0' then
      .ok ([], .ReadInteger 0 none)
    else if '1' ≤ ch ∧ ch ≤ '9' then
      .ok ([], .ReadInteger ((rustToDigit ch 10).getD 0) (some 10))
    else if isRustAlphabetic ch ∨ ch = '_' then
      .ok ([], .ReadIdentifier (String.singleton ch))
    else if isRustWhitespace ch then
      .ok ([], .ConsumeNextChar)
    else .error (.unknownChar ch)
  | .ReadIdentifier s =>
    if isPrimitiveChar ch then
      match primitive_to_token ch with
      | .error e => .error e
      | .ok t => .ok ([string_to_token s, t], .ConsumeNextChar)
    else if isRustAlphanumeric ch ∨ ch = '_' then
      .ok ([], .ReadIdentifier (s.push ch))
    else if isRustWhitespace ch then
      .ok ([string_to_token s], .ConsumeNextChar)
    else .error (.unknownChar ch)
  | .ReadInteger number radix =>
    if isPrimitiveChar ch then
      match primitive_to_token ch with
      | .error e => .error e
      | .ok t => .ok ([.Integer number, t], .ConsumeNextChar)
    else if isIntegerChar ch then
      match radix with
      | some r =>
        match rustToDigit ch r with
        | some d => .ok ([], .ReadInteger ((r * number + d) % 2 ^ 64) (some r))
        | none => .error (.unexpectedChar ch)
      | none =>
        if '0' ≤ ch ∧ ch ≤ '9' then
          .ok ([], .ReadInteger ((10 * number + (rustToDigit ch 10).getD 0) % 2 ^ 64)
            (some 10))
        else if ch = 'b' then .ok ([], .ReadInteger number (some 2))
        else if ch = 'o' then .ok ([], .ReadInteger number (some 8))
        else if ch = 'x' then .ok ([], .ReadInteger number (some 16))
        else .error (.unexpectedChar ch)
    else if isRustWhitespace ch then
      .ok ([.Integer number], .ConsumeNextChar)
    else if isRustAlphabetic ch then
      .error (.unexpectedChar ch)
    else .error (.unknownChar ch)

/-- Run the character loop over the characters of one line, starting in
state `st`: collects the tokens pushed, threads the state, aborts on the
first error (the `?` operator in the source). -/
def processChars (st : TokenizerState) : List Char →
    Except LexError (List Token × TokenizerState)
  | [] => .ok ([], st)
  | c :: cs =>
    match stepChar st c with
    | .error e => .error e
    | .ok (ts, st') =>
      match processChars st' cs with
      | .error e => .error e
      | .ok (ts', st'') => .ok (ts ++ ts', st'')

/-- The end-of-line dump of `Tokenizer::tokenize`: a pending identifier is
flushed through `string_to_token`, a pending integer as `Integer`, the idle
state flushes nothing. -/
def flushLine : TokenizerState → List Token
  | .ConsumeNextChar => []
  | .ReadIdentifier s => [string_to_token s]
  | .ReadInteger n _ => [.Integer n]

/-- One iteration of the `for line in stream.lines()` loop: scan the line's
characters from the idle state (the state is always `ConsumeNextChar` at
the start of a line, since it is reset after every line), then flush the
pending lexeme.  The tokenizer is left in `ConsumeNextChar`. -/
def processLine (cs : List Char) : Except LexError (List Token) :=
  match processChars .ConsumeNextChar cs with
  | .error e => .error e
  | .ok (ts, st) => .ok (ts ++ flushLine st)

/-- `Tokenizer::tokenize` on a fresh tokenizer, with the input stream given
as its list of lines (each a list of characters, line terminators already
stripped, as Rust's `lines()` does). -/
def tokenize : List (List Char) → Except LexError (List Token)
  | [] => .ok []
  | l :: ls =>
    match processLine l with
    | .error e => .error e
    | .ok ts =>
      match tokenize ls with
      | .error e => .error e
      | .ok rest => .ok (ts ++ rest)

/-- Convenience wrapper: `tokenize` on lines given as strings. -/
def tokenizeStr (lines : List String) : Except LexError (List Token) :=
  tokenize (lines.map String.toList)

deriving instance DecidableEq for Except

/-- Mathematical value of a digit sequence in radix `r` (exact, no
truncation): the left fold `value = r * value + digit`. -/
def digitsVal (r : Nat) (ds : List Nat) : Nat :=
  ds.foldl (fun a d => r * a + d) 0

/-! ## Toolkit: characters as code points -/

theorem char_eq_iff (c d : Char) : c = d ↔ c.toNat = d.toNat :=
  ⟨fun h => h ▸ rfl, fun h => Char.ext (UInt32.toNat.inj h)⟩

theorem char_le_iff (c d : Char) : c ≤ d ↔ c.toNat ≤ d.toNat := Iff.rfl

theorem ch9 : ('\u0009' : Char).toNat = 9 := rfl
theorem ch10 : ('\u000a' : Char).toNat = 10 := rfl
theorem ch11 : ('\u000b' : Char).toNat = 11 := rfl
theorem ch12 : ('\u000c' : Char).toNat = 12 := rfl
theorem ch13 : ('\u000d' : Char).toNat = 13 := rfl
theorem ch32 : (' ' : Char).toNat = 32 := rfl
theorem ch40 : ('(' : Char).toNat = 40 := rfl
theorem ch41 : (')' : Char).toNat = 41 := rfl
theorem ch48 : ('0' : Char).toNat = 48 := rfl
theorem ch49 : ('1' : Char).toNat = 49 := rfl
theorem ch57 : ('9' : Char).toNat = 57 := rfl
theorem ch59 : (';' : Char).toNat = 59 := rfl
theorem ch65 : ('A' : Char).toNat = 65 := rfl
theorem ch90 : ('Z' : Char).toNat = 90 := rfl
theorem ch95 : ('_' : Char).toNat = 95 := rfl
theorem ch97 : ('a' : Char).toNat = 97 := rfl
theorem ch98 : ('b' : Char).toNat = 98 := rfl
theorem ch102 : ('f' : Char).toNat = 102 := rfl
theorem ch111 : ('o' : Char).toNat = 111 := rfl
theorem ch120 : ('x' : Char).toNat = 120 := rfl
theorem ch122 : ('z' : Char).toNat = 122 := rfl
theorem ch123 : ('{' : Char).toNat = 123 := rfl
theorem ch125 : ('}' : Char).toNat = 125 := rfl
theorem ch133 : ('\u0085' : Char).toNat = 133 := rfl
theorem ch160 : (' ' : Char).toNat = 160 := rfl
theorem ch5760 : (' ' : Char).toNat = 5760 := rfl
theorem ch8192 : (' ' : Char).toNat = 8192 := rfl
theorem ch8193 : (' ' : Char).toNat = 8193 := rfl
theorem ch8194 : (' ' : Char).toNat = 8194 := rfl
theorem ch8195 : (' ' : Char).toNat = 8195 := rfl
theorem ch8196 : (' ' : Char).toNat = 8196 := rfl
theorem ch8197 : (' ' : Char).toNat = 8197 := rfl
theorem ch8198 : (' ' : Char).toNat = 8198 := rfl
theorem ch8199 : (' ' : Char).toNat = 8199 := rfl
theorem ch8200 : (' ' : Char).toNat = 8200 := rfl
theorem ch8201 : (' ' : Char).toNat = 8201 := rfl
theorem ch8202 : (' ' : Char).toNat = 8202 := rfl
theorem ch8232 : (' ' : Char).toNat = 8232 := rfl
theorem ch8233 : (' ' : Char).toNat = 8233 := rfl
theorem ch8239 : (' ' : Char).toNat = 8239 := rfl
theorem ch8287 : (' ' : Char).toNat = 8287 := rfl
theorem ch12288 : ('　' : Char).toNat = 12288 := rfl

theorem isPrimitiveChar_iff (c : Char) : isPrimitiveChar c = true ↔
    (c.toNat = 123 ∨ c.toNat = 125 ∨ c.toNat = 40 ∨ c.toNat = 41 ∨ c.toNat = 59) := by
  simp only [isPrimitiveChar, decide_eq_true_eq, char_eq_iff, ch9, ch10, ch11, ch12, ch13, ch32, ch40, ch41, ch48, ch49, ch57, ch59, ch65, ch90, ch95, ch97, ch98, ch102, ch111, ch120, ch122, ch123, ch125, ch133, ch160, ch5760, ch8192, ch8193, ch8194, ch8195, ch8196, ch8197, ch8198, ch8199, ch8200, ch8201, ch8202, ch8232, ch8233, ch8239, ch8287, ch12288]

theorem isIntegerChar_iff (c : Char) : isIntegerChar c = true ↔
    ((48 ≤ c.toNat ∧ c.toNat ≤ 57) ∨ (97 ≤ c.toNat ∧ c.toNat ≤ 102) ∨
      c.toNat = 111 ∨ c.toNat = 120) := by
  simp only [isIntegerChar, decide_eq_true_eq, char_eq_iff, char_le_iff, ch9, ch10, ch11, ch12, ch13, ch32, ch40, ch41, ch48, ch49, ch57, ch59, ch65, ch90, ch95, ch97, ch98, ch102, ch111, ch120, ch122, ch123, ch125, ch133, ch160, ch5760, ch8192, ch8193, ch8194, ch8195, ch8196, ch8197, ch8198, ch8199, ch8200, ch8201, ch8202, ch8232, ch8233, ch8239, ch8287, ch12288]

theorem isRustAlphabetic_iff (c : Char) : isRustAlphabetic c = true ↔
    ((97 ≤ c.toNat ∧ c.toNat ≤ 122) ∨ (65 ≤ c.toNat ∧ c.toNat ≤ 90)) := by
  simp only [isRustAlphabetic, decide_eq_true_eq, char_eq_iff, char_le_iff, ch9, ch10, ch11, ch12, ch13, ch32, ch40, ch41, ch48, ch49, ch57, ch59, ch65, ch90, ch95, ch97, ch98, ch102, ch111, ch120, ch122, ch123, ch125, ch133, ch160, ch5760, ch8192, ch8193, ch8194, ch8195, ch8196, ch8197, ch8198, ch8199, ch8200, ch8201, ch8202, ch8232, ch8233, ch8239, ch8287, ch12288]

theorem isRustAlphanumeric_iff (c : Char) : isRustAlphanumeric c = true ↔
    ((97 ≤ c.toNat ∧ c.toNat ≤ 122) ∨ (65 ≤ c.toNat ∧ c.toNat ≤ 90) ∨
      (48 ≤ c.toNat ∧ c.toNat ≤ 57)) := by
  simp only [isRustAlphanumeric, isRustAlphabetic, decide_eq_true_eq, char_eq_iff,
    char_le_iff, ch9, ch10, ch11, ch12, ch13, ch32, ch40, ch41, ch48, ch49, ch57, ch59, ch65, ch90, ch95, ch97, ch98, ch102, ch111, ch120, ch122, ch123, ch125, ch133, ch160, ch5760, ch8192, ch8193, ch8194, ch8195, ch8196, ch8197, ch8198, ch8199, ch8200, ch8201, ch8202, ch8232, ch8233, ch8239, ch8287, ch12288]
  tauto

theorem isRustWhitespace_iff (c : Char) : isRustWhitespace c = true ↔
    (c.toNat = 9 ∨ c.toNat = 10 ∨ c.toNat = 11 ∨ c.toNat = 12 ∨ c.toNat = 13 ∨
      c.toNat = 32 ∨ c.toNat = 133 ∨ c.toNat = 160 ∨ c.toNat = 5760 ∨
      c.toNat = 8192 ∨ c.toNat = 8193 ∨ c.toNat = 8194 ∨ c.toNat = 8195 ∨
      c.toNat = 8196 ∨ c.toNat = 8197 ∨ c.toNat = 8198 ∨ c.toNat = 8199 ∨
      c.toNat = 8200 ∨ c.toNat = 8201 ∨ c.toNat = 8202 ∨ c.toNat = 8232 ∨
      c.toNat = 8233 ∨ c.toNat = 8239 ∨ c.toNat = 8287 ∨ c.toNat = 12288) := by
  simp only [isRustWhitespace, decide_eq_true_eq, char_eq_iff, ch9, ch10, ch11, ch12, ch13, ch32, ch40, ch41, ch48, ch49, ch57, ch59, ch65, ch90, ch95, ch97, ch98, ch102, ch111, ch120, ch122, ch123, ch125, ch133, ch160, ch5760, ch8192, ch8193, ch8194, ch8195, ch8196, ch8197, ch8198, ch8199, ch8200, ch8201, ch8202, ch8232, ch8233, ch8239, ch8287, ch12288]

/-! ## Toolkit: structural lemmas about the scan -/

theorem processChars_append (cs1 : List Char) :
    ∀ (st : TokenizerState) (cs2 : List Char),
    processChars st (cs1 ++ cs2) =
      match processChars st cs1 with
      | .error e => .error e
      | .ok (ts1, st1) =>
        match processChars st1 cs2 with
        | .error e => .error e
        | .ok (ts2, st2) => .ok (ts1 ++ ts2, st2) := by
  induction cs1 with
  | nil =>
    intro st cs2
    simp only [List.nil_append, processChars]
    cases processChars st cs2 with
    | error e => rfl
    | ok p => simp
  | cons c cs ih =>
    intro st cs2
    simp only [List.cons_append, processChars, List.append_eq, ih]
    cases stepChar st c with
    | error e => rfl
    | ok p =>
      obtain ⟨ts, st'⟩ := p
      simp only []
      cases processChars st' cs with
      | error e => rfl
      | ok q =>
        obtain ⟨ts2, st2⟩ := q
        simp only []
        cases processChars st2 cs2 with
        | error e => rfl
        | ok r => simp

theorem tokenize_append (ls1 ls2 : List (List Char)) :
    tokenize (ls1 ++ ls2) =
      match tokenize ls1 with
      | .error e => .error e
      | .ok a =>
        match tokenize ls2 with
        | .error e => .error e
        | .ok b => .ok (a ++ b) := by
  induction ls1 with
  | nil =>
    simp only [List.nil_append, tokenize]
    cases tokenize ls2 with
    | error e => rfl
    | ok b => simp
  | cons l ls ih =>
    simp only [List.cons_append, tokenize, List.append_eq, ih]
    cases processLine l with
    | error e => rfl
    | ok ts =>
      simp only []
      cases tokenize ls with
      | error e => rfl
      | ok a =>
        simp only []
        cases tokenize ls2 with
        | error e => rfl
        | ok b => simp

/-! ## Toolkit: single-character step facts -/

theorem stepIdle_punct (c : Char) (h : isPrimitiveChar c = true) :
    ∃ t, primitive_to_token c = .ok t ∧
      stepChar .ConsumeNextChar c = .ok ([t], .ConsumeNextChar) := by
  simp only [isPrimitiveChar, decide_eq_true_eq] at h
  rcases h with rfl | rfl | rfl | rfl | rfl <;> exact ⟨_, rfl, rfl⟩

theorem stepIdle_ws (c : Char) (h : isRustWhitespace c = true) :
    stepChar .ConsumeNextChar c = .ok ([], .ConsumeNextChar) ∧
      (primitive_to_token c).toOption = none := by
  simp only [isRustWhitespace, decide_eq_true_eq] at h
  rcases h with rfl | rfl | rfl | rfl | rfl | rfl | rfl | rfl | rfl | rfl | rfl | rfl |
    rfl | rfl | rfl | rfl | rfl | rfl | rfl | rfl | rfl | rfl | rfl | rfl | rfl <;> decide

theorem stepInteger_digit (r : Nat) (n : Nat) (c : Char)
    (h1 : isIntegerChar c = true) (h2 : (rustToDigit c r).isSome = true) :
    stepChar (.ReadInteger n (some r)) c =
      .ok ([], .ReadInteger ((r * n + (rustToDigit c r).getD 0) % 2 ^ 64) (some r)) := by
  have hi := (isIntegerChar_iff c).mp h1
  simp only [stepChar]
  rw [if_neg (by simp only [isPrimitiveChar_iff]; omega), if_pos h1]
  obtain ⟨d, hd⟩ := Option.isSome_iff_exists.mp h2
  simp only [hd, Option.getD_some]

theorem stepInteger_upper (n : Nat) (r : Option Nat) (c : Char)
    (h1 : 65 ≤ c.toNat) (h2 : c.toNat ≤ 90) :
    stepChar (.ReadInteger n r) c = .error (.unexpectedChar c) := by
  simp only [stepChar]
  rw [if_neg (by simp only [isPrimitiveChar_iff]; omega),
    if_neg (by simp only [isIntegerChar_iff]; omega),
    if_neg (by simp only [isRustWhitespace_iff]; omega),
    if_pos (by simp only [isRustAlphabetic_iff]; omega)]

theorem stepIdle_zero : stepChar .ConsumeNextChar '0' = .ok ([], .ReadInteger 0 none) :=
  rfl

theorem stepIdle_digit19 (c : Char) (h1 : 49 ≤ c.toNat) (h2 : c.toNat ≤ 57) :
    stepChar .ConsumeNextChar c = .ok ([], .ReadInteger (c.toNat - 48) (some 10)) := by
  simp only [stepChar]
  rw [if_neg (by simp only [isPrimitiveChar_iff]; omega),
    if_neg (by simp only [char_eq_iff, ch48]; omega),
    if_pos (by simp only [char_le_iff, ch49, ch57]; exact ⟨h1, h2⟩)]
  have : rustToDigit c 10 = some (c.toNat - 48) := by
    unfold rustToDigit
    rw [if_pos (by simp only [char_le_iff, ch48, ch57]; omega), if_pos (by omega)]
  rw [this, Option.getD_some]

theorem rustToDigit_digit (c : Char) (h1 : 48 ≤ c.toNat) (h2 : c.toNat ≤ 57) :
    rustToDigit c 10 = some (c.toNat - 48) := by
  unfold rustToDigit
  rw [if_pos (by simp only [char_le_iff, ch48, ch57]; omega), if_pos (by omega)]

theorem stepIntegerNone_digit (n : Nat) (c : Char) (h1 : 48 ≤ c.toNat)
    (h2 : c.toNat ≤ 57) :
    stepChar (.ReadInteger n none) c =
      .ok ([], .ReadInteger ((10 * n + (c.toNat - 48)) % 2 ^ 64) (some 10)) := by
  simp only [stepChar]
  rw [if_neg (by simp only [isPrimitiveChar_iff]; omega),
    if_pos (by simp only [isIntegerChar_iff]; omega)]
  rw [if_pos (by simp only [char_le_iff, ch48, ch57]; omega),
    rustToDigit_digit c h1 h2, Option.getD_some]

/-! ## Toolkit: digit accumulation -/

theorem foldl_mod_congr (r M : Nat) (ds : List Nat) :
    ∀ a b, a % M = b % M →
      (ds.foldl (fun x d => r * x + d) a) % M =
        (ds.foldl (fun x d => r * x + d) b) % M := by
  induction ds with
  | nil => intro a b h; simpa using h
  | cons d ds ih =>
    intro a b h
    simp only [List.foldl_cons]
    apply ih
    conv_lhs => rw [Nat.add_mod, Nat.mul_mod, h]
    conv_rhs => rw [Nat.add_mod, Nat.mul_mod]

theorem foldl_mod_eq (r : Nat) (ds : List Nat) :
    ∀ n, n < 2 ^ 64 →
      ds.foldl (fun a d => (r * a + d) % 2 ^ 64) n =
        (ds.foldl (fun a d => r * a + d) n) % 2 ^ 64 := by
  induction ds with
  | nil =>
    intro n h
    simp only [List.foldl_nil]
    exact (Nat.mod_eq_of_lt h).symm
  | cons d ds ih =>
    intro n h
    simp only [List.foldl_cons]
    rw [ih _ (Nat.mod_lt _ (by norm_num))]
    exact foldl_mod_congr r (2 ^ 64) ds _ _ (Nat.mod_mod_of_dvd _ dvd_rfl)

theorem processChars_digits (r : Nat) (cs : List Char) :
    ∀ n, (∀ c ∈ cs, isIntegerChar c = true ∧ (rustToDigit c r).isSome = true) →
      processChars (.ReadInteger n (some r)) cs =
        .ok ([], .ReadInteger
          (cs.foldl (fun a c => (r * a + (rustToDigit c r).getD 0) % 2 ^ 64) n)
          (some r)) := by
  induction cs with
  | nil => intro n _; simp [processChars]
  | cons c cs ih =>
    intro n h
    have hc := h c (List.mem_cons_self c cs)
    simp only [processChars, stepInteger_digit r n c hc.1 hc.2]
    rw [ih ((r * n + (rustToDigit c r).getD 0) % 2 ^ 64)
      (fun d hd => h d (List.mem_cons_of_mem _ hd))]
    simp [List.foldl_cons]

theorem foldl_ext_mem {α β : Type} (f g : β → α → β) (l : List α)
    (h : ∀ c ∈ l, ∀ b, f b c = g b c) : ∀ b, l.foldl f b = l.foldl g b := by
  induction l with
  | nil => intro b; rfl
  | cons c cs ih =>
    intro b
    simp only [List.foldl_cons]
    rw [h c (List.mem_cons_self c cs) b]
    exact ih (fun d hd b => h d (List.mem_cons_of_mem _ hd) b) _

/-! ## Toolkit: punctuation and whitespace lines -/

theorem processChars_punct_ws (cs : List Char)
    (h : ∀ c ∈ cs, isPrimitiveChar c = true ∨ isRustWhitespace c = true) :
    processChars .ConsumeNextChar cs =
      .ok (cs.filterMap (fun c => (primitive_to_token c).toOption),
        .ConsumeNextChar) := by
  induction cs with
  | nil => simp [processChars]
  | cons c cs ih =>
    have ihr := ih (fun d hd => h d (List.mem_cons_of_mem _ hd))
    rcases h c (List.mem_cons_self c cs) with hp | hw
    · obtain ⟨t, hpt, hstep⟩ := stepIdle_punct c hp
      simp only [processChars, hstep, ihr, List.filterMap_cons, hpt, Except.toOption]
      simp
    · obtain ⟨hstep, hnone⟩ := stepIdle_ws c hw
      simp only [processChars, hstep, ihr, List.filterMap_cons, hnone]
      simp

/-! ## Toolkit: whole numeric literals -/

theorem processChars_decimal (ds : List Char) (hne : ds ≠ [])
    (h : ∀ c ∈ ds, 48 ≤ c.toNat ∧ c.toNat ≤ 57) :
    ∃ rad, processChars .ConsumeNextChar ds =
      .ok ([], .ReadInteger (digitsVal 10 (ds.map fun c => c.toNat - 48) % 2 ^ 64)
        rad) := by
  cases ds with
  | nil => exact absurd rfl hne
  | cons c cs =>
    have hc := h c (List.mem_cons_self c cs)
    have hall : ∀ d ∈ cs, isIntegerChar d = true ∧ (rustToDigit d 10).isSome = true := by
      intro d hd
      have hdd := h d (List.mem_cons_of_mem _ hd)
      refine ⟨by simp only [isIntegerChar_iff]; omega, ?_⟩
      rw [rustToDigit_digit d hdd.1 hdd.2]
      rfl
    by_cases h0 : c.toNat = 48
    · have hceq : c = '0' := by rw [char_eq_iff, ch48]; exact h0
      subst hceq
      cases cs with
      | nil => exact ⟨none, by decide⟩
      | cons c2 cs2 =>
        have hc2 := h c2 (by simp)
        have hall2 : ∀ d ∈ cs2, isIntegerChar d = true ∧
            (rustToDigit d 10).isSome = true :=
          fun d hd => hall d (List.mem_cons_of_mem _ hd)
        refine ⟨some 10, ?_⟩
        simp only [processChars, stepIdle_zero, stepIntegerNone_digit 0 c2 hc2.1 hc2.2]
        rw [processChars_digits 10 cs2 _ hall2]
        simp only [List.nil_append]
        have hext : cs2.foldl
              (fun a c => (10 * a + (rustToDigit c 10).getD 0) % 2 ^ 64)
              ((10 * 0 + (c2.toNat - 48)) % 2 ^ 64) =
            cs2.foldl (fun a c => (10 * a + (c.toNat - 48)) % 2 ^ 64)
              ((10 * 0 + (c2.toNat - 48)) % 2 ^ 64) := by
          refine foldl_ext_mem _ _ _ (fun d hd b => ?_) _
          have hdd := h d (by simp [hd])
          rw [rustToDigit_digit d hdd.1 hdd.2, Option.getD_some]
        rw [hext, ← List.foldl_map (fun c : Char => c.toNat - 48)
          (fun a d => (10 * a + d) % 2 ^ 64)]
        rw [foldl_mod_eq 10 _ _ (Nat.mod_lt _ (by norm_num))]
        rw [foldl_mod_congr 10 (2 ^ 64) _ _ (10 * 0 + (c2.toNat - 48))
          (Nat.mod_mod_of_dvd _ dvd_rfl)]
        simp only [digitsVal, List.map_cons, List.foldl_cons, ch48]
    · have hc19 : 49 ≤ c.toNat := by omega
      refine ⟨some 10, ?_⟩
      simp only [processChars, stepIdle_digit19 c hc19 hc.2]
      rw [processChars_digits 10 cs _ hall]
      simp only [List.nil_append]
      have hext : cs.foldl
            (fun a c => (10 * a + (rustToDigit c 10).getD 0) % 2 ^ 64)
            (c.toNat - 48) =
          cs.foldl (fun a c => (10 * a + (c.toNat - 48)) % 2 ^ 64) (c.toNat - 48) := by
        refine foldl_ext_mem _ _ _ (fun d hd b => ?_) _
        have hdd := h d (List.mem_cons_of_mem _ hd)
        rw [rustToDigit_digit d hdd.1 hdd.2, Option.getD_some]
      rw [hext, ← List.foldl_map (fun c : Char => c.toNat - 48)
        (fun a d => (10 * a + d) % 2 ^ 64)]
      rw [foldl_mod_eq 10 _ _ (by omega)]
      simp only [digitsVal, List.map_cons, List.foldl_cons]
      norm_num

theorem tokenize_decimal (ds : List Char) (hne : ds ≠ [])
    (h : ∀ c ∈ ds, 48 ≤ c.toNat ∧ c.toNat ≤ 57) :
    tokenize [ds] =
      .ok [.Integer (digitsVal 10 (ds.map fun c => c.toNat - 48) % 2 ^ 64)] := by
  obtain ⟨rad, hpc⟩ := processChars_decimal ds hne h
  simp only [tokenize, processLine, hpc, flushLine, List.nil_append, List.append_nil]

theorem processChars_prefixed (r : Nat) (pc : Char)
    (hr : (r = 2 ∧ pc = 'b') ∨ (r = 8 ∧ pc = 'o') ∨ (r = 16 ∧ pc = 'x'))
    (hs : List Char)
    (h : ∀ c ∈ hs, isIntegerChar c = true ∧ (rustToDigit c r).isSome = true) :
    processChars .ConsumeNextChar ('0' :: pc :: hs) =
      .ok ([], .ReadInteger
        (digitsVal r (hs.map fun c => (rustToDigit c r).getD 0) % 2 ^ 64)
        (some r)) := by
  have hstep2 : stepChar (.ReadInteger 0 none) pc = .ok ([], .ReadInteger 0 (some r)) := by
    rcases hr with ⟨rfl, rfl⟩ | ⟨rfl, rfl⟩ | ⟨rfl, rfl⟩ <;> rfl
  simp only [processChars, stepIdle_zero, hstep2]
  rw [processChars_digits r hs 0 h]
  simp only [List.nil_append]
  rw [← List.foldl_map (fun c : Char => (rustToDigit c r).getD 0)
    (fun a d => (r * a + d) % 2 ^ 64)]
  rw [foldl_mod_eq r _ 0 (by norm_num)]
  rfl

theorem tokenize_prefixed (r : Nat) (pc : Char)
    (hr : (r = 2 ∧ pc = 'b') ∨ (r = 8 ∧ pc = 'o') ∨ (r = 16 ∧ pc = 'x'))
    (hs : List Char)
    (h : ∀ c ∈ hs, isIntegerChar c = true ∧ (rustToDigit c r).isSome = true) :
    tokenize ['0' :: pc :: hs] =
      .ok [.Integer (digitsVal r (hs.map fun c => (rustToDigit c r).getD 0) % 2 ^ 64)] := by
  simp only [tokenize, processLine, processChars_prefixed r pc hr hs h, flushLine,
    List.nil_append, List.append_nil]

/-! ## Claims -/

/-- C1 counterexample: contrary to the claim, `tokenize "0x1F"` does not
return `[Integer 31]` — the uppercase hex digit `F` is outside the
`'a'...'f'` match arm, falls into the `is_alphabetic` guard of the
`ReadInteger` state, and the call fails with the "Unexpected character"
lexical error. -/
theorem C1_hex_uppercase_fails :
    tokenizeStr ["0x1F"] = .error (.unexpectedChar 'F') ∧
    tokenizeStr ["0x1F"] ≠ .ok [.Integer 31] := by decide

/-- C1 (amended): for the single-line input `"0x1f"` (lowercase hex
digits), tokenize succeeds and returns exactly `[Integer 31]`: after the
`0x` radix prefix the hexadecimal digits `1` and `f` are accumulated as
`value = value * 16 + digit`. -/
theorem C1_hex_lowercase_literal :
    tokenizeStr ["0x1f"] = .ok [.Integer 31] := by decide

/-- C2: `tokenize "0b2"` fails with a lexical error (digit `2` is invalid
in radix 2) and `tokenize "@"` fails with a lexical error (unclassifiable
character); in both cases the call returns an error result, not a token
sequence. -/
theorem C2_invalid_inputs_fail :
    tokenizeStr ["0b2"] = .error (.unexpectedChar '2') ∧
    tokenizeStr ["@"] = .error (.unknownChar '@') := by decide

/-- C3 counterexample: the claim says that in state `InInteger(0, None)`
every character other than `b`/`o`/`x`/`0`-`9` makes tokenize fail with an
"unexpected character" error.  In fact a punctuation character succeeds
(flushing `Integer 0` and the punctuation token, so `tokenize "0;"`
returns tokens), and an unclassifiable character like `@` fails with the
"unknown character" error, not the "unexpected character" one. -/
theorem C3_radix_none_counterexample :
    stepChar (.ReadInteger 0 none) ';' =
      .ok ([Token.Integer 0, Token.Semicolon], .ConsumeNextChar) ∧
    tokenizeStr ["0;"] = .ok [.Integer 0, .Semicolon] ∧
    stepChar (.ReadInteger 0 none) '@' = .error (.unknownChar '@') := by decide

/-- C3 (amended): in state `InInteger(value, radix=None)` the next
character `c` is handled as: `b`/`o`/`x` set radix 2/8/16 leaving the
value at 0; a decimal digit sets radix 10 and folds itself in
(`value = 10*0 + digit = digit`); the remaining integer-arm characters
`a`,`c`,`d`,`e`,`f` and every other ASCII alphabetic character
(`a`-`z`, `A`-`Z`) fail with the "unexpected character" error; a
punctuation character flushes `Integer 0` followed by its punctuation
token; whitespace flushes `Integer 0`; every remaining ASCII character
fails with the "unknown character" error.  (The two letter/catch-all
rows are stated on the ASCII range, where the embedded classifiers
coincide with Rust's Unicode `char::is_alphabetic`; non-ASCII
characters are outside the scope of this claim.) -/
theorem C3_radix_none_dispatch :
    (stepChar (.ReadInteger 0 none) 'b' = .ok ([], .ReadInteger 0 (some 2))) ∧
    (stepChar (.ReadInteger 0 none) 'o' = .ok ([], .ReadInteger 0 (some 8))) ∧
    (stepChar (.ReadInteger 0 none) 'x' = .ok ([], .ReadInteger 0 (some 16))) ∧
    (∀ c : Char, 48 ≤ c.toNat → c.toNat ≤ 57 →
      stepChar (.ReadInteger 0 none) c =
        .ok ([], .ReadInteger (c.toNat - 48) (some 10))) ∧
    (∀ c ∈ (['a', 'c', 'd', 'e', 'f'] : List Char),
      stepChar (.ReadInteger 0 none) c = .error (.unexpectedChar c)) ∧
    (∀ c : Char, ((97 ≤ c.toNat ∧ c.toNat ≤ 122) ∨ (65 ≤ c.toNat ∧ c.toNat ≤ 90)) →
      isIntegerChar c = false → isPrimitiveChar c = false →
      stepChar (.ReadInteger 0 none) c = .error (.unexpectedChar c)) ∧
    (∀ c : Char, isPrimitiveChar c = true →
      ∃ t, primitive_to_token c = .ok t ∧
        stepChar (.ReadInteger 0 none) c =
          .ok ([Token.Integer 0, t], .ConsumeNextChar)) ∧
    (∀ c : Char, isRustWhitespace c = true →
      stepChar (.ReadInteger 0 none) c = .ok ([Token.Integer 0], .ConsumeNextChar)) ∧
    (∀ c : Char, c.toNat < 128 → isPrimitiveChar c = false → isIntegerChar c = false →
      isRustWhitespace c = false → isRustAlphabetic c = false →
      stepChar (.ReadInteger 0 none) c = .error (.unknownChar c)) := by
  refine ⟨by decide, by decide, by decide, ?_, ?_, ?_, ?_, ?_, ?_⟩
  · intro c h1 h2
    rw [stepIntegerNone_digit 0 c h1 h2]
    have : (10 * 0 + (c.toNat - 48)) % 2 ^ 64 = c.toNat - 48 := by omega
    rw [this]
  · intro c hc
    fin_cases hc <;> decide
  · intro c h1 h2 h3
    have ha : isRustAlphabetic c = true := (isRustAlphabetic_iff c).mpr h1
    simp only [stepChar]
    rw [if_neg (by simp [h3]), if_neg (by simp [h2]),
      if_neg (by simp only [isRustWhitespace_iff]; omega),
      if_pos ha]
  · intro c hp
    simp only [isPrimitiveChar, decide_eq_true_eq] at hp
    rcases hp with rfl | rfl | rfl | rfl | rfl <;> exact ⟨_, rfl, rfl⟩
  · intro c hw
    simp only [isRustWhitespace, decide_eq_true_eq] at hw
    rcases hw with rfl | rfl | rfl | rfl | rfl | rfl | rfl | rfl | rfl | rfl | rfl |
      rfl | rfl | rfl | rfl | rfl | rfl | rfl | rfl | rfl | rfl | rfl | rfl | rfl |
      rfl <;> decide
  · intro c _ h1 h2 h3 h4
    simp only [stepChar]
    rw [if_neg (by simp [h1]), if_neg (by simp [h2]), if_neg (by simp [h3]),
      if_neg (by simp [h4])]

/-- C3 witness: the amended dispatch applied to the decimal digit `7`. -/
theorem C3_radix_none_dispatch_witness :
    stepChar (.ReadInteger 0 none) '7' =
      .ok ([], .ReadInteger ('7'.toNat - 48) (some 10)) :=
  C3_radix_none_dispatch.2.2.2.1 '7' (by decide) (by decide)

/-- C4: `string_to_token` maps exactly the spellings `"Int"` and
`"Return"` to keyword tokens and every other string `s` to
`Identifier s`, case-sensitively; consequently `tokenize "int x;"` yields
`[Identifier "int", Identifier "x", Semicolon]`, lowercase `int` being an
identifier rather than the `Int` keyword. -/
theorem C4_keywords_case_sensitive :
    string_to_token "Int" = .IntKeyword ∧
    string_to_token "Return" = .ReturnKeyword ∧
    (∀ s : String, s ≠ "Int" → s ≠ "Return" → string_to_token s = .Identifier s) ∧
    tokenizeStr ["int x;"] =
      .ok [.Identifier "int", .Identifier "x", .Semicolon] := by
  refine ⟨by decide, by decide, ?_, by decide⟩
  intro s h1 h2
  unfold string_to_token
  rw [if_neg h1, if_neg h2]

/-- C4 witness: the identifier case applied to the concrete string
`"foo"`. -/
theorem C4_keywords_case_sensitive_witness :
    string_to_token "foo" = .Identifier "foo" :=
  C4_keywords_case_sensitive.2.2.1 "foo" (by decide) (by decide)

/-- C5: at the end of every line the pending lexeme is flushed
(`stringToToken acc` for identifiers, `Integer value` for integers) and
the state is reset, so lines tokenize independently (splitting the stream
at any line boundary splits the token sequence) and no lexeme spans a line
boundary: the two-line input `"fo"` / `"o"` yields
`[Identifier "fo", Identifier "o"]`, not `[Identifier "foo"]`. -/
theorem C5_line_boundary_flush :
    (∀ ls1 ls2 : List (List Char),
      tokenize (ls1 ++ ls2) =
        match tokenize ls1 with
        | .error e => .error e
        | .ok a =>
          match tokenize ls2 with
          | .error e => .error e
          | .ok b => .ok (a ++ b)) ∧
    (∀ (cs : List Char) (ts : List Token) (st : TokenizerState),
      processChars .ConsumeNextChar cs = .ok (ts, st) →
      processLine cs = .ok (ts ++ flushLine st)) ∧
    tokenizeStr ["fo", "o"] = .ok [.Identifier "fo", .Identifier "o"] := by
  refine ⟨tokenize_append, ?_, by decide⟩
  intro cs ts st h
  simp only [processLine, h]

/-- C5 witness: the flush rule applied to the single line `"fo"`, which
ends in the identifier state. -/
theorem C5_line_boundary_flush_witness :
    processLine ['f', 'o'] = .ok ([] ++ flushLine (.ReadIdentifier "fo")) :=
  C5_line_boundary_flush.2.1 ['f', 'o'] [] (.ReadIdentifier "fo") (by decide)

/-- C6: an input consisting solely of the five punctuation characters and
whitespace tokenizes successfully to exactly one punctuation token per
punctuation character, in input order; whitespace contributes no
tokens. -/
theorem C6_punct_ws_only (lines : List (List Char))
    (h : ∀ l ∈ lines, ∀ c ∈ l, isPrimitiveChar c = true ∨ isRustWhitespace c = true) :
    tokenize lines =
      .ok (lines.flatten.filterMap fun c => (primitive_to_token c).toOption) := by
  induction lines with
  | nil => simp [tokenize]
  | cons l ls ih =>
    have hl := h l (List.mem_cons_self l ls)
    simp only [tokenize, processLine, processChars_punct_ws l hl, flushLine,
      ih (fun m hm => h m (List.mem_cons_of_mem _ hm)), List.flatten_cons,
      List.filterMap_append, List.append_nil]

/-- C6 witness: the punctuation/whitespace property on the concrete line
`"{ };("`. -/
theorem C6_punct_ws_only_witness :
    tokenize [['{', ' ', '}', ';', '(']] =
      .ok ([['{', ' ', '}', ';', '(']].flatten.filterMap
        fun c => (primitive_to_token c).toOption) :=
  C6_punct_ws_only [['{', ' ', '}', ';', '(']] (by decide)

/-- C7: the first character that triggers a lexical error aborts the whole
`tokenize` call with exactly that error, regardless of what follows it and
of any tokens accumulated before it: no token sequence is returned. -/
theorem C7_first_error_aborts (ls1 : List (List Char)) (ts1 : List Token)
    (cs1 : List Char) (tks : List Token) (st : TokenizerState) (c : Char)
    (e : LexError) (cs2 : List Char) (ls2 : List (List Char))
    (h1 : tokenize ls1 = .ok ts1)
    (h2 : processChars .ConsumeNextChar cs1 = .ok (tks, st))
    (h3 : stepChar st c = .error e) :
    tokenize (ls1 ++ (cs1 ++ c :: cs2) :: ls2) = .error e := by
  have hline : processChars .ConsumeNextChar (cs1 ++ c :: cs2) = .error e := by
    rw [processChars_append cs1 .ConsumeNextChar (c :: cs2), h2]
    simp only [processChars, h3]
  rw [tokenize_append ls1 ((cs1 ++ c :: cs2) :: ls2), h1]
  simp only [tokenize, processLine, hline]

/-- C7 witness: in `"0b21"` followed by a second line `"()"`, the digit
`2` (invalid in radix 2) aborts the whole call with its error even though
a later line would produce tokens. -/
theorem C7_first_error_aborts_witness :
    tokenize [['0', 'b', '2', '1'], ['(', ')']] = .error (.unexpectedChar '2') :=
  C7_first_error_aborts [] [] ['0', 'b'] [] (.ReadInteger 0 (some 2)) '2'
    (.unexpectedChar '2') ['1'] [['(', ')']] (by decide) (by decide) (by decide)

/-- C8: `tokenize` is deterministic — two runs over the same fresh input
produce the same result, identical token sequence or identical error. -/
theorem C8_deterministic (lines : List (List Char))
    (r1 r2 : Except LexError (List Token))
    (h1 : tokenize lines = r1) (h2 : tokenize lines = r2) : r1 = r2 :=
  h1.symm.trans h2

/-- C8 witness: two runs on the line `"42"` agree. -/
theorem C8_deterministic_witness :
    (Except.ok [Token.Integer 42] : Except LexError (List Token)) =
      .ok [Token.Integer 42] :=
  C8_deterministic [['4', '2']] (.ok [.Integer 42]) (.ok [.Integer 42])
    (by decide) (by decide)

/-- C9: only lowercase letters serve as hex digits: `tokenize "0x1f"`
returns `[Integer 31]`, while every uppercase ASCII letter (`A`-`Z`,
in particular `A`-`F`) encountered in the `InInteger` state — whatever the
value and radix sub-state — fails with the "unexpected character" lexical
error, because only `0`-`9`, `a`-`f`, `o` and `x` are accepted there. -/
theorem C9_lowercase_hex_only :
    tokenizeStr ["0x1f"] = .ok [.Integer 31] ∧
    (∀ c : Char, 65 ≤ c.toNat → c.toNat ≤ 90 →
      ∀ (n : Nat) (r : Option Nat),
        stepChar (.ReadInteger n r) c = .error (.unexpectedChar c)) :=
  ⟨by decide, fun c h1 h2 n r => stepInteger_upper n r c h1 h2⟩

/-- C9 witness: the uppercase rejection applied to `A` in hex state. -/
theorem C9_lowercase_hex_only_witness :
    stepChar (.ReadInteger 5 (some 16)) 'A' = .error (.unexpectedChar 'A') :=
  C9_lowercase_hex_only.2 'A' (by decide) (by decide) 5 (some 16)

/-- C10: digit accumulation is u64 arithmetic with no overflow check: for
every decimal literal and every `0b`/`0o`/`0x`-prefixed literal the
emitted `Integer` token carries the literal's mathematical value reduced
modulo `2^64` (in particular a literal valued `≥ 2^64` yields its residue
instead of failing). -/
theorem C10_accumulation_mod_2_64 :
    (∀ ds : List Char, ds ≠ [] → (∀ c ∈ ds, 48 ≤ c.toNat ∧ c.toNat ≤ 57) →
      tokenize [ds] =
        .ok [.Integer (digitsVal 10 (ds.map fun c => c.toNat - 48) % 2 ^ 64)]) ∧
    (∀ (r : Nat) (pc : Char),
      ((r = 2 ∧ pc = 'b') ∨ (r = 8 ∧ pc = 'o') ∨ (r = 16 ∧ pc = 'x')) →
      ∀ hs : List Char,
        (∀ c ∈ hs, isIntegerChar c = true ∧ (rustToDigit c r).isSome = true) →
        tokenize ['0' :: pc :: hs] =
          .ok [.Integer
            (digitsVal r (hs.map fun c => (rustToDigit c r).getD 0) % 2 ^ 64)]) :=
  ⟨tokenize_decimal, tokenize_prefixed⟩

/-- C10 witness: the decimal literal `18446744073709551616` (that is,
`2^64`) produces `Integer (2^64 % 2^64) = Integer 0` instead of
failing. -/
theorem C10_accumulation_mod_2_64_witness :
    tokenize [['1', '8', '4', '4', '6', '7', '4', '4', '0', '7', '3', '7', '0',
      '9', '5', '5', '1', '6', '1', '6']] =
      .ok [.Integer (digitsVal 10
        ((['1', '8', '4', '4', '6', '7', '4', '4', '0', '7', '3', '7', '0',
          '9', '5', '5', '1', '6', '1', '6'] : List Char).map
          fun c => c.toNat - 48) % 2 ^ 64)] :=
  C10_accumulation_mod_2_64.1
    ['1', '8', '4', '4', '6', '7', '4', '4', '0', '7', '3', '7', '0',
      '9', '5', '5', '1', '6', '1', '6'] (by decide) (by decide)
